import Mathlib

/-!
Verification of GramsOccupancy core components against their specification.

Part I embeds `make_flux_map` from scripts/make_flux_maps.py: flux values and
pixel cosines are modelled as rationals, Python's fallible operations
(sequence indexing, division by zero) return `Except`, and the HEALPix
pixel-to-cosine mapping (hp.pix2ang / np.cos, an external library) is a
function parameter constrained to [-1, 1].

Part II embeds the pipeline orchestrator from scripts/run_sim.py: the file
system and external process invocation are capability parameters (`Env`),
as the spec's design notes themselves suggest.
-/

/-- Python runtime errors and the spec's error taxonomy, as one error type. -/
inductive PyErr where
  | indexError
  | zeroDivisionError
  | notFound
  | dataInsufficient
deriving DecidableEq

/-- Python's `int(x)` conversion: truncation toward zero. -/
def pyInt (q : ℚ) : ℤ := if 0 ≤ q then ⌊q⌋ else ⌈q⌉

/-- Python sequence indexing value (negative indices count from the end),
assuming the index is in range. -/
def pyGet (xs : List ℚ) (i : ℤ) : ℚ :=
  if 0 ≤ i then xs.getD i.toNat 0 else xs.getD (xs.length - (-i).toNat) 0

/-- Python sequence indexing: out-of-range access raises IndexError. -/
def pyGetE (xs : List ℚ) (i : ℤ) : Except PyErr ℚ :=
  if -(xs.length : ℤ) ≤ i ∧ i < (xs.length : ℤ) then .ok (pyGet xs i)
  else .error .indexError

/-- One row of the angular flux CSV: columns particle, energy, costheta, flux. -/
structure FluxRow where
  particle : String
  energy : ℚ
  costheta : ℚ
  flux : ℚ
deriving DecidableEq

/-- The `df.query('particle == ... & energy == ...')` slice
(make_flux_maps.py line 37). -/
def querySlice (df : List FluxRow) (particle : String) (energy : ℚ) : List FluxRow :=
  df.filter (fun r => r.particle == particle && r.energy == energy)

/-- `hp.nside2npix`: pixel count of the tessellation, 12·nside². -/
def nside2npix (nside : ℕ) : ℕ := 12 * nside ^ 2

/-- The per-pixel flux of make_flux_maps.py lines 49-55, as a total value
function (meaningful when the accesses are in range, which the lemmas below
establish): clamp to the penultimate sample in the topmost cell, otherwise
linearly interpolate at the truncated fractional index. -/
def pixel_flux_val (fluxes : List ℚ) (delta costheta : ℚ) : ℚ :=
  if 1 - delta ≤ costheta then
    pyGet fluxes (-2)
  else
    (1 - ((costheta + 1) / delta - (pyInt ((costheta + 1) / delta) : ℚ)))
        * pyGet fluxes (pyInt ((costheta + 1) / delta))
      + ((costheta + 1) / delta - (pyInt ((costheta + 1) / delta) : ℚ))
        * pyGet fluxes (pyInt ((costheta + 1) / delta) + 1)

/-- The per-pixel flux of make_flux_maps.py lines 49-55 with Python's
dynamic IndexError semantics on the two sequence accesses (the left access
is evaluated first, as in the source expression). -/
def pixel_flux (fluxes : List ℚ) (delta costheta : ℚ) : Except PyErr ℚ :=
  if 1 - delta ≤ costheta then
    pyGetE fluxes (-2)
  else
    match pyGetE fluxes (pyInt ((costheta + 1) / delta)),
          pyGetE fluxes (pyInt ((costheta + 1) / delta) + 1) with
    | .ok a, .ok b =>
        .ok ((1 - ((costheta + 1) / delta - (pyInt ((costheta + 1) / delta) : ℚ))) * a
             + ((costheta + 1) / delta - (pyInt ((costheta + 1) / delta) : ℚ)) * b)
    | .error e, _ => .error e
    | _, .error e => .error e

/-- `make_flux_map(nside, df, particle, energy)` of make_flux_maps.py lines
35-59. `pixCos` stands for `np.cos(hp.pix2ang(nside, ipix)[0])`, the cosine
of pixel `ipix`'s colatitude, supplied by the external HEALPix library.
`2.0 / (len(costhetas) - 1)` raises ZeroDivisionError exactly when the
slice has one row; every other error is an IndexError from a flux access. -/
def make_flux_map (nside : ℕ) (df : List FluxRow) (particle : String) (energy : ℚ)
    (pixCos : ℕ → ℚ) : Except PyErr (List ℚ) :=
  let slice := querySlice df particle energy
  let m := slice.length
  if m = 1 then .error .zeroDivisionError
  else
    let delta : ℚ := 2 / ((m : ℚ) - 1)
    let fluxes := slice.map (·.flux)
    (List.range (nside2npix nside)).mapM (fun ipix => pixel_flux fluxes delta (pixCos ipix))

/-! ### Elementary facts about the embedded primitives -/

theorem pyGetE_neg_two (xs : List ℚ) (h2 : 2 ≤ xs.length) :
    pyGetE xs (-2) = .ok (xs.getD (xs.length - 2) 0) := by
  have h2' : (2 : ℤ) ≤ (xs.length : ℤ) := by exact_mod_cast h2
  unfold pyGetE
  rw [if_pos (by omega)]
  unfold pyGet
  rw [if_neg (by omega)]
  simp

theorem pyGetE_of_nonneg_lt (xs : List ℚ) (i : ℤ) (h0 : 0 ≤ i) (hlt : i < (xs.length : ℤ)) :
    pyGetE xs i = .ok (xs.getD i.toNat 0) := by
  unfold pyGetE
  rw [if_pos (by omega)]
  unfold pyGet
  rw [if_pos h0]

theorem pyGetE_nil (i : ℤ) : pyGetE [] i = .error .indexError := by
  unfold pyGetE
  rw [if_neg]
  rintro ⟨h1, h2⟩
  simp at h1 h2
  omega

theorem pyInt_of_nonneg {q : ℚ} (h : 0 ≤ q) : pyInt q = ⌊q⌋ := by
  unfold pyInt; rw [if_pos h]

theorem delta_pos {m : ℕ} (hm : 2 ≤ m) : 0 < (2 : ℚ) / ((m : ℚ) - 1) := by
  have hm' : (2 : ℚ) ≤ (m : ℚ) := by exact_mod_cast hm
  apply div_pos <;> linarith

theorem idx_lt {m : ℕ} {c : ℚ} (hm : 2 ≤ m) (hlt : c < 1 - 2 / ((m : ℚ) - 1)) :
    (c + 1) / (2 / ((m : ℚ) - 1)) < (m : ℚ) - 2 := by
  have hm' : (2 : ℚ) ≤ (m : ℚ) := by exact_mod_cast hm
  have h1 : (0 : ℚ) < (m : ℚ) - 1 := by linarith
  have hd : 0 < (2 : ℚ) / ((m : ℚ) - 1) := delta_pos hm
  rw [div_lt_iff₀ hd]
  have hkey : ((m : ℚ) - 2) * (2 / ((m : ℚ) - 1)) = 2 - 2 / ((m : ℚ) - 1) := by
    field_simp
    ring
  rw [hkey]
  linarith

/-- In the interpolation branch the floor of the fractional index is a valid
index with a valid right neighbour. -/
theorem floor_idx_bounds {fluxes : List ℚ} {delta c : ℚ}
    (hdelta : delta = 2 / ((fluxes.length : ℚ) - 1)) (hm : 2 ≤ fluxes.length)
    (hc1 : -1 ≤ c) (hc2 : c < 1 - delta) :
    0 ≤ ⌊(c + 1) / delta⌋ ∧ ⌊(c + 1) / delta⌋ < (fluxes.length : ℤ) - 2 := by
  have hd : 0 < delta := hdelta ▸ delta_pos hm
  have h0 : 0 ≤ (c + 1) / delta := div_nonneg (by linarith) hd.le
  constructor
  · exact Int.floor_nonneg.mpr h0
  · rw [Int.floor_lt]
    push_cast
    subst hdelta
    exact idx_lt hm hc2

/-- The boundary branch of the pixel loop: within the topmost sampling cell
the flux is the penultimate tabulated value. -/
theorem pixel_flux_boundary {fluxes : List ℚ} {delta c : ℚ} (hm : 2 ≤ fluxes.length)
    (hc : 1 - delta ≤ c) :
    pixel_flux fluxes delta c = .ok (fluxes.getD (fluxes.length - 2) 0) := by
  unfold pixel_flux
  rw [if_pos hc]
  exact pyGetE_neg_two _ hm

/-- The interpolation branch of the pixel loop, expressed through the floor
and fractional part (the spec's integer part and remainder): on [0, ∞) the
source's `int` truncation agrees with the floor. -/
theorem pixel_flux_interp {fluxes : List ℚ} {delta c : ℚ}
    (hdelta : delta = 2 / ((fluxes.length : ℚ) - 1)) (hm : 2 ≤ fluxes.length)
    (hc1 : -1 ≤ c) (hc2 : c < 1 - delta) :
    pixel_flux fluxes delta c =
      .ok ((1 - Int.fract ((c + 1) / delta)) * fluxes.getD (⌊(c + 1) / delta⌋).toNat 0
           + Int.fract ((c + 1) / delta) * fluxes.getD ((⌊(c + 1) / delta⌋).toNat + 1) 0) := by
  have hd : 0 < delta := hdelta ▸ delta_pos hm
  have h0 : 0 ≤ (c + 1) / delta := div_nonneg (by linarith) hd.le
  obtain ⟨hf0, hfub⟩ := floor_idx_bounds hdelta hm hc1 hc2
  have hm' : (2 : ℤ) ≤ (fluxes.length : ℤ) := by exact_mod_cast hm
  have hpy : pyInt ((c + 1) / delta) = ⌊(c + 1) / delta⌋ := pyInt_of_nonneg h0
  unfold pixel_flux
  rw [if_neg (not_le.mpr hc2), hpy,
    pyGetE_of_nonneg_lt _ _ hf0 (by omega),
    pyGetE_of_nonneg_lt _ _ (by omega) (by omega)]
  have htn : (⌊(c + 1) / delta⌋ + 1).toNat = (⌊(c + 1) / delta⌋).toNat + 1 := by omega
  rw [htn]
  simp only [Int.fract]

/-- The total value function agrees with the fallible pixel computation in
range: no access goes out of bounds. -/
theorem pixel_flux_eq_val {fluxes : List ℚ} {delta c : ℚ}
    (hdelta : delta = 2 / ((fluxes.length : ℚ) - 1)) (hm : 2 ≤ fluxes.length)
    (hc1 : -1 ≤ c) :
    pixel_flux fluxes delta c = .ok (pixel_flux_val fluxes delta c) := by
  by_cases hc : 1 - delta ≤ c
  · rw [pixel_flux_boundary hm hc]
    unfold pixel_flux_val
    rw [if_pos hc]
    unfold pyGet
    rw [if_neg (by omega)]
    simp
  · push_neg at hc
    rw [pixel_flux_interp hdelta hm hc1 hc]
    have hd : 0 < delta := hdelta ▸ delta_pos hm
    have h0 : 0 ≤ (c + 1) / delta := div_nonneg (by linarith) hd.le
    obtain ⟨hf0, hfub⟩ := floor_idx_bounds hdelta hm hc1 hc
    have hpy : pyInt ((c + 1) / delta) = ⌊(c + 1) / delta⌋ := pyInt_of_nonneg h0
    unfold pixel_flux_val
    rw [if_neg (not_le.mpr hc), hpy]
    unfold pyGet
    rw [if_pos hf0, if_pos (by omega)]
    have htn : (⌊(c + 1) / delta⌋ + 1).toNat = (⌊(c + 1) / delta⌋).toNat + 1 := by omega
    rw [htn]
    simp only [Int.fract]

/-- Every in-range pixel value is either a table entry or a convex
combination of two adjacent table entries; this expresses it as such. -/
theorem pixel_flux_val_cases {fluxes : List ℚ} {delta c : ℚ}
    (hdelta : delta = 2 / ((fluxes.length : ℚ) - 1)) (hm : 2 ≤ fluxes.length)
    (hc1 : -1 ≤ c) :
    (∃ x ∈ fluxes, pixel_flux_val fluxes delta c = x) ∨
    (∃ x ∈ fluxes, ∃ y ∈ fluxes, ∃ f : ℚ, 0 ≤ f ∧ f < 1 ∧
      pixel_flux_val fluxes delta c = (1 - f) * x + f * y) := by
  have hmem : ∀ k : ℕ, k < fluxes.length → fluxes.getD k 0 ∈ fluxes := by
    intro k hk
    rw [List.getD_eq_getElem _ _ hk]
    exact List.getElem_mem hk
  by_cases hc : 1 - delta ≤ c
  · left
    refine ⟨_, hmem (fluxes.length - Int.toNat 2) (by omega), ?_⟩
    unfold pixel_flux_val pyGet
    rw [if_pos hc, if_neg (by omega)]
    norm_num
  · push_neg at hc
    right
    have hd : 0 < delta := hdelta ▸ delta_pos hm
    have h0 : 0 ≤ (c + 1) / delta := div_nonneg (by linarith) hd.le
    obtain ⟨hf0, hfub⟩ := floor_idx_bounds hdelta hm hc1 hc
    have hpy : pyInt ((c + 1) / delta) = ⌊(c + 1) / delta⌋ := pyInt_of_nonneg h0
    have hmm : (2 : ℤ) ≤ (fluxes.length : ℤ) := by exact_mod_cast hm
    have hkn : (⌊(c + 1) / delta⌋).toNat < fluxes.length := by omega
    have hkn1 : (⌊(c + 1) / delta⌋).toNat + 1 < fluxes.length := by omega
    refine ⟨_, hmem _ hkn, _, hmem _ hkn1, (c + 1) / delta - (⌊(c + 1) / delta⌋ : ℚ),
      ?_, ?_, ?_⟩
    · have := Int.floor_le ((c + 1) / delta)
      linarith
    · have := Int.lt_floor_add_one ((c + 1) / delta)
      linarith
    · unfold pixel_flux_val pyGet
      rw [if_neg (not_le.mpr hc), hpy, if_pos hf0, if_pos (by omega)]
      have htn : (⌊(c + 1) / delta⌋ + 1).toNat = (⌊(c + 1) / delta⌋).toNat + 1 := by omega
      rw [htn]

/-- A convex combination with weight in [0, 1) respects common bounds. -/
theorem convex_bounds {x y f lo hi : ℚ} (hf0 : 0 ≤ f) (hf1 : f < 1)
    (hx : lo ≤ x ∧ x ≤ hi) (hy : lo ≤ y ∧ y ≤ hi) :
    lo ≤ (1 - f) * x + f * y ∧ (1 - f) * x + f * y ≤ hi := by
  obtain ⟨hx1, hx2⟩ := hx
  obtain ⟨hy1, hy2⟩ := hy
  constructor
  · nlinarith [mul_nonneg (by linarith : (0:ℚ) ≤ 1 - f) (by linarith : 0 ≤ x - lo),
      mul_nonneg hf0 (by linarith : 0 ≤ y - lo)]
  · nlinarith [mul_nonneg (by linarith : (0:ℚ) ≤ 1 - f) (by linarith : 0 ≤ hi - x),
      mul_nonneg hf0 (by linarith : 0 ≤ hi - y)]

/-- mapM over Except succeeds pointwise when every element maps to ok. -/
theorem mapM_ok_of_ok {ε α β : Type} (f : α → Except ε β) (g : α → β) :
    ∀ l : List α, (∀ a ∈ l, f a = .ok (g a)) → l.mapM f = .ok (l.map g) := by
  intro l
  induction l with
  | nil => intro _; rfl
  | cons x xs ih =>
    intro h
    rw [List.map_cons, List.mapM_cons, h x (by simp), ih (fun a ha => h a (by simp [ha]))]
    rfl

/-- mapM over Except fails immediately when the head fails. -/
theorem mapM_cons_error {ε α β : Type} (f : α → Except ε β) (x : α) (l : List α) (e : ε)
    (h : f x = .error e) : (x :: l).mapM f = .error e := by
  rw [List.mapM_cons, h]
  rfl

/-- Element extraction from a map over a range. -/
theorem getD_map_range {β : Type} (n : ℕ) (g : ℕ → β) (d : β) (i : ℕ) (h : i < n) :
    ((List.range n).map g).getD i d = g i := by
  have hl : i < ((List.range n).map g).length := by simpa using h
  rw [List.getD_eq_getElem _ _ hl, List.getElem_map]
  congr 1
  exact List.getElem_range _ _

/-- Master lemma: under the spec's input constraints (at least two samples,
pixel cosines in [-1, 1]) `make_flux_map` succeeds and computes the total
per-pixel value at every pixel of the tessellation. -/
theorem make_flux_map_ok (nside : ℕ) (df : List FluxRow) (particle : String) (energy : ℚ)
    (pixCos : ℕ → ℚ) (hm : 2 ≤ (querySlice df particle energy).length)
    (hcos : ∀ i, -1 ≤ pixCos i) :
    make_flux_map nside df particle energy pixCos =
      .ok ((List.range (nside2npix nside)).map
        (fun ipix => pixel_flux_val ((querySlice df particle energy).map (·.flux))
          (2 / (((querySlice df particle energy).length : ℚ) - 1)) (pixCos ipix))) := by
  unfold make_flux_map
  rw [if_neg (by omega)]
  apply mapM_ok_of_ok
  intro a _
  have hlen : ((querySlice df particle energy).map (·.flux)).length
      = (querySlice df particle energy).length := List.length_map _ _
  apply pixel_flux_eq_val
  · rw [hlen]
  · rw [hlen]; exact hm
  · exact hcos a

/-- With an empty flux table every access raises IndexError (off the top
cell, which an empty table's negative spacing makes unreachable). -/
theorem pixel_flux_nil {d c : ℚ} (hc : ¬ (1 - d ≤ c)) :
    pixel_flux [] d c = .error .indexError := by
  unfold pixel_flux
  rw [if_neg hc, pyGetE_nil, pyGetE_nil]

/-- An absent (particle, energy) pair gives an empty slice, a spacing of
2/(0-1) = -2, and an IndexError on the first pixel's flux access — there is
no NotFound check in the source. -/
theorem make_flux_map_empty_slice (nside : ℕ) (df : List FluxRow) (particle : String)
    (energy : ℚ) (pixCos : ℕ → ℚ) (hempty : querySlice df particle energy = [])
    (hn : 1 ≤ nside) (hc : pixCos 0 ≤ 1) :
    make_flux_map nside df particle energy pixCos = .error .indexError := by
  unfold make_flux_map
  rw [hempty]
  simp only [List.length_nil, List.map_nil]
  rw [if_neg (by norm_num)]
  have hpos : 1 ≤ nside2npix nside := by
    have h1 : 1 ≤ nside ^ 2 := Nat.one_le_pow _ _ (by omega)
    unfold nside2npix
    omega
  obtain ⟨k, hk⟩ : ∃ k, nside2npix nside = k + 1 := ⟨nside2npix nside - 1, by omega⟩
  rw [hk, List.range_succ_eq_map]
  apply mapM_cons_error
  apply pixel_flux_nil
  simp only [Nat.cast_zero]
  intro hcon
  norm_num at hcon
  linarith

/-- A single-sample slice makes `2.0 / (len(costhetas) - 1)` divide by
zero — there is no DataInsufficient check in the source. -/
theorem make_flux_map_single_row (nside : ℕ) (df : List FluxRow) (particle : String)
    (energy : ℚ) (pixCos : ℕ → ℚ) (h1 : (querySlice df particle energy).length = 1) :
    make_flux_map nside df particle energy pixCos = .error .zeroDivisionError := by
  unfold make_flux_map
  rw [if_pos h1]

/-! ### Concrete data for witnesses and counterexamples -/

/-- The spec's end-to-end scenario table: m = 5 samples `[1.0, 0.8, 0.5,
0.3, 0.1]` (as exact rationals) over uniform cosines `[-1, -0.5, 0, 0.5, 1]`
for one particle and energy band. -/
def specDf : List FluxRow :=
  [⟨"proton", 1, -1, 1⟩, ⟨"proton", 1, -1/2, 4/5⟩, ⟨"proton", 1, 0, 1/2⟩,
   ⟨"proton", 1, 1/2, 3/10⟩, ⟨"proton", 1, 1, 1/10⟩]

/-- Exact colatitude cosines of the 12 HEALPix nside = 1 ring-scheme pixel
centres: z = 2/3 for the polar-cap pixels 0-3, z = 0 for the equatorial
pixels 4-7, z = -2/3 for pixels 8-11 (indices past the map never occur). -/
def healpix1Cos : ℕ → ℚ := fun i => if i < 4 then 2/3 else if i < 8 then 0 else -2/3

/-- A table holding only proton rows, for querying an absent pair. -/
def dfProtonOnly : List FluxRow := [⟨"proton", 1, -1, 2⟩, ⟨"proton", 1, 1, 3⟩]

/-- A table whose (proton, 1) slice has a single sample. -/
def dfOneRow : List FluxRow := [⟨"proton", 1, 0, 1⟩]

/-- A table whose (proton, 1) slice is non-uniformly sampled: spacings 3/2
and 1/2. -/
def dfNonUniform : List FluxRow :=
  [⟨"proton", 1, -1, 1⟩, ⟨"proton", 1, 1/2, 2⟩, ⟨"proton", 1, 1, 3⟩]

/-- Every member of a rational list is at most the foldr max over it. -/
theorem le_max_of_mem {x : ℚ} {l : List ℚ} (h : x ∈ l) : x ≤ l.foldr max 0 := by
  induction l with
  | nil => cases h
  | cons a l ih =>
    rcases List.mem_cons.mp h with rfl | hl
    · exact le_max_left _ _
    · exact le_trans (ih hl) (le_max_right _ _)

theorem querySlice_specDf : querySlice specDf "proton" 1 = specDf := by
  simp [querySlice, specDf]

theorem querySlice_dfNonUniform : querySlice dfNonUniform "proton" 1 = dfNonUniform := by
  simp [querySlice, dfNonUniform]

theorem healpix1Cos_mem (i : ℕ) : -1 ≤ healpix1Cos i ∧ healpix1Cos i ≤ 1 := by
  unfold healpix1Cos
  split_ifs <;> norm_num

/-! ### Claims about the flux map synthesizer -/

/-- C1: for every table slice with m ≥ 2 uniformly spaced cos-zenith
samples, every pixel whose cosine is at least 1 - Δ (Δ = 2/(m-1)) receives
exactly the penultimate tabulated flux value table[m-2]: the boundary branch
reads index -2, never -1, and performs no extrapolation. -/
theorem boundary_cell_receives_penultimate
    (nside : ℕ) (df : List FluxRow) (particle : String) (energy : ℚ) (pixCos : ℕ → ℚ)
    (m : ℕ) (delta : ℚ)
    (hm : m = (querySlice df particle energy).length) (h2 : 2 ≤ m)
    (hdelta : delta = 2 / ((m : ℚ) - 1))
    (huni : ∀ k, k < m → ((querySlice df particle energy).map (·.costheta)).getD k 0
      = -1 + (k : ℚ) * delta)
    (hcos : ∀ i, -1 ≤ pixCos i ∧ pixCos i ≤ 1) :
    ∃ out, make_flux_map nside df particle energy pixCos = .ok out ∧
      ∀ ipix, ipix < nside2npix nside → 1 - delta ≤ pixCos ipix →
        out.getD ipix 0 = ((querySlice df particle energy).map (·.flux)).getD (m - 2) 0 := by
  subst hm
  subst hdelta
  refine ⟨_, make_flux_map_ok nside df particle energy pixCos h2 (fun i => (hcos i).1), ?_⟩
  intro ipix hip hbd
  rw [getD_map_range _ _ _ _ hip]
  unfold pixel_flux_val pyGet
  rw [if_pos hbd, if_neg (by omega)]
  rw [List.length_map]
  have ht : (-(-2 : ℤ)).toNat = 2 := rfl
  rw [ht]

/-- C2: for every uniformly sampled slice with m ≥ 2 samples and
non-negative flux values, `make_flux_map` succeeds with exactly 12·nside²
entries, each non-negative and between any common lower and upper bound of
the tabulated values (so within [min(table), max(table)]; all values are
exact rationals, hence finite). -/
theorem flux_map_size_and_range
    (nside : ℕ) (df : List FluxRow) (particle : String) (energy : ℚ) (pixCos : ℕ → ℚ)
    (m : ℕ) (delta : ℚ)
    (hm : m = (querySlice df particle energy).length) (h2 : 2 ≤ m)
    (hdelta : delta = 2 / ((m : ℚ) - 1))
    (huni : ∀ k, k < m → ((querySlice df particle energy).map (·.costheta)).getD k 0
      = -1 + (k : ℚ) * delta)
    (hnn : ∀ r ∈ querySlice df particle energy, 0 ≤ r.flux)
    (hcos : ∀ i, -1 ≤ pixCos i ∧ pixCos i ≤ 1) :
    ∃ out, make_flux_map nside df particle energy pixCos = .ok out ∧
      out.length = 12 * nside ^ 2 ∧
      (∀ q ∈ out, 0 ≤ q) ∧
      (∀ lo hi : ℚ, (∀ r ∈ querySlice df particle energy, lo ≤ r.flux ∧ r.flux ≤ hi) →
        ∀ q ∈ out, lo ≤ q ∧ q ≤ hi) := by
  subst hm
  subst hdelta
  have hfl : ∀ x ∈ (querySlice df particle energy).map (·.flux),
      ∃ r ∈ querySlice df particle energy, r.flux = x := by
    intro x hx
    obtain ⟨r, hr, hrx⟩ := List.mem_map.mp hx
    exact ⟨r, hr, hrx⟩
  have hbound : ∀ lo hi : ℚ,
      (∀ r ∈ querySlice df particle energy, lo ≤ r.flux ∧ r.flux ≤ hi) →
      ∀ ipix : ℕ,
        lo ≤ pixel_flux_val ((querySlice df particle energy).map (·.flux))
              (2 / (((querySlice df particle energy).length : ℚ) - 1)) (pixCos ipix)
        ∧ pixel_flux_val ((querySlice df particle energy).map (·.flux))
              (2 / (((querySlice df particle energy).length : ℚ) - 1)) (pixCos ipix) ≤ hi := by
    intro lo hi hlohi ipix
    have hlen : ((querySlice df particle energy).map (·.flux)).length
        = (querySlice df particle energy).length := List.length_map _ _
    have hcases := @pixel_flux_val_cases ((querySlice df particle energy).map (·.flux))
      (2 / (((querySlice df particle energy).length : ℚ) - 1))
      (pixCos ipix) (by rw [hlen]) (by rw [hlen]; exact h2) (hcos ipix).1
    have helem : ∀ x ∈ (querySlice df particle energy).map (·.flux), lo ≤ x ∧ x ≤ hi := by
      intro x hx
      obtain ⟨r, hr, hrx⟩ := hfl x hx
      rw [← hrx]
      exact hlohi r hr
    rcases hcases with ⟨x, hx, hval⟩ | ⟨x, hx, y, hy, f, hf0, hf1, hval⟩
    · rw [hval]; exact helem x hx
    · rw [hval]; exact convex_bounds hf0 hf1 (helem x hx) (helem y hy)
  refine ⟨_, make_flux_map_ok nside df particle energy pixCos h2 (fun i => (hcos i).1),
    ?_, ?_, ?_⟩
  · simp [nside2npix]
  · intro q hq
    obtain ⟨i, _, rfl⟩ := List.mem_map.mp hq
    exact (hbound 0 (((querySlice df particle energy).map (·.flux)).foldr max 0)
      (fun r hr => ⟨hnn r hr,
        le_max_of_mem (List.mem_map.mpr ⟨r, hr, rfl⟩)⟩) i).1
  · intro lo hi hlohi q hq
    obtain ⟨i, _, rfl⟩ := List.mem_map.mp hq
    exact hbound lo hi hlohi i

/-- C3: for every pixel whose cosine is strictly below 1 - Δ the returned
value is (1-f)·table[i] + f·table[i+1] with i = ⌊(c+1)/Δ⌋ and f its
fractional part (the source's `int` truncation agrees with the floor since
the index is non-negative); when f = 0 the value is exactly table[i]. -/
theorem interior_pixel_linear_interpolation
    (nside : ℕ) (df : List FluxRow) (particle : String) (energy : ℚ) (pixCos : ℕ → ℚ)
    (m : ℕ) (delta : ℚ)
    (hm : m = (querySlice df particle energy).length) (h2 : 2 ≤ m)
    (hdelta : delta = 2 / ((m : ℚ) - 1))
    (hcos : ∀ i, -1 ≤ pixCos i ∧ pixCos i ≤ 1)
    (ipix : ℕ) (hip : ipix < nside2npix nside)
    (hlt : pixCos ipix < 1 - delta) :
    ∃ out, make_flux_map nside df particle energy pixCos = .ok out ∧
      out.getD ipix 0 =
        (1 - Int.fract ((pixCos ipix + 1) / delta))
            * ((querySlice df particle energy).map (·.flux)).getD
                (⌊(pixCos ipix + 1) / delta⌋).toNat 0
          + Int.fract ((pixCos ipix + 1) / delta)
            * ((querySlice df particle energy).map (·.flux)).getD
                ((⌊(pixCos ipix + 1) / delta⌋).toNat + 1) 0 ∧
      (Int.fract ((pixCos ipix + 1) / delta) = 0 →
        out.getD ipix 0 = ((querySlice df particle energy).map (·.flux)).getD
          (⌊(pixCos ipix + 1) / delta⌋).toNat 0) := by
  subst hm
  subst hdelta
  refine ⟨_, make_flux_map_ok nside df particle energy pixCos h2 (fun i => (hcos i).1), ?_, ?_⟩
  all_goals
    rw [getD_map_range _ _ _ _ hip]
  · have hlen : ((querySlice df particle energy).map (·.flux)).length
        = (querySlice df particle energy).length := List.length_map _ _
    have h1 := @pixel_flux_eq_val ((querySlice df particle energy).map (·.flux))
      (2 / (((querySlice df particle energy).length : ℚ) - 1))
      (pixCos ipix) (by rw [hlen]) (by rw [hlen]; exact h2) (hcos ipix).1
    have h2i := @pixel_flux_interp ((querySlice df particle energy).map (·.flux))
      (2 / (((querySlice df particle energy).length : ℚ) - 1))
      (pixCos ipix) (by rw [hlen]) (by rw [hlen]; exact h2) (hcos ipix).1 hlt
    exact Except.ok.inj (h1.symm.trans h2i)
  · intro hf0
    have hlen : ((querySlice df particle energy).map (·.flux)).length
        = (querySlice df particle energy).length := List.length_map _ _
    have h1 := @pixel_flux_eq_val ((querySlice df particle energy).map (·.flux))
      (2 / (((querySlice df particle energy).length : ℚ) - 1))
      (pixCos ipix) (by rw [hlen]) (by rw [hlen]; exact h2) (hcos ipix).1
    have h2i := @pixel_flux_interp ((querySlice df particle energy).map (·.flux))
      (2 / (((querySlice df particle energy).length : ℚ) - 1))
      (pixCos ipix) (by rw [hlen]) (by rw [hlen]; exact h2) (hcos ipix).1 hlt
    have heq := Except.ok.inj (h1.symm.trans h2i)
    rw [heq, hf0]
    ring

/-- C10: with m ≥ 2 samples and any pixel cosine in [-1, 1] every array
access of the pixel loop is in bounds: the computation returns ok (never
IndexError), the boundary branch's penultimate index m-2 exists, and in the
interpolation branch the truncated index i satisfies 0 ≤ i and
i + 1 ≤ m - 1. -/
theorem pixel_access_safety
    (fluxes : List ℚ) (delta c : ℚ) (m : ℕ)
    (hm : m = fluxes.length) (h2 : 2 ≤ m)
    (hdelta : delta = 2 / ((m : ℚ) - 1)) (hc1 : -1 ≤ c) (hc2 : c ≤ 1) :
    (∃ v, pixel_flux fluxes delta c = .ok v) ∧
    (m - 2 < m) ∧
    (c < 1 - delta → 0 ≤ pyInt ((c + 1) / delta) ∧
      (pyInt ((c + 1) / delta)).toNat + 1 ≤ m - 1) := by
  subst hm
  subst hdelta
  refine ⟨⟨_, pixel_flux_eq_val rfl h2 hc1⟩, by omega, ?_⟩
  intro hlt
  have hd : 0 < 2 / ((fluxes.length : ℚ) - 1) := delta_pos h2
  have h0 : 0 ≤ (c + 1) / (2 / ((fluxes.length : ℚ) - 1)) := div_nonneg (by linarith) hd.le
  obtain ⟨hf0, hfub⟩ := floor_idx_bounds rfl h2 hc1 hlt
  rw [pyInt_of_nonneg h0]
  exact ⟨hf0, by omega⟩

/-- C4 counterexample: querying an absent (particle, energy) pair does not
produce NotFound — the empty slice leads to an IndexError on the first
pixel's flux access. -/
theorem absent_pair_gives_index_error :
    querySlice dfProtonOnly "muplus" 1 = [] ∧
    make_flux_map 1 dfProtonOnly "muplus" 1 healpix1Cos = .error .indexError ∧
    PyErr.indexError ≠ PyErr.notFound := by
  have hq : querySlice dfProtonOnly "muplus" 1 = [] := by
    simp [querySlice, dfProtonOnly]
  refine ⟨hq, ?_, by decide⟩
  apply make_flux_map_empty_slice _ _ _ _ _ hq (by norm_num)
  norm_num [healpix1Cos]

/-- C4 (amended): `make_flux_map` performs no input validation. An absent
pair gives an empty slice and an IndexError (never NotFound); a
single-sample slice raises ZeroDivisionError (never DataInsufficient); and
no uniformity check exists — a non-uniformly spaced slice (spacings 3/2 and
1/2) is processed into an ordinary map without any error. -/
theorem make_flux_map_no_validation :
    (∀ (df : List FluxRow) (particle : String) (energy : ℚ) (pixCos : ℕ → ℚ) (nside : ℕ),
      querySlice df particle energy = [] → 1 ≤ nside → pixCos 0 ≤ 1 →
      make_flux_map nside df particle energy pixCos = .error .indexError) ∧
    (∀ (df : List FluxRow) (particle : String) (energy : ℚ) (pixCos : ℕ → ℚ) (nside : ℕ),
      (querySlice df particle energy).length = 1 →
      make_flux_map nside df particle energy pixCos = .error .zeroDivisionError) ∧
    ((querySlice dfNonUniform "proton" 1).map (·.costheta) = [-1, 1/2, 1] ∧
      ∃ out, make_flux_map 1 dfNonUniform "proton" 1 healpix1Cos = .ok out) := by
  refine ⟨fun df particle energy pixCos nside h1 h2 h3 =>
      make_flux_map_empty_slice nside df particle energy pixCos h1 h2 h3,
    fun df particle energy pixCos nside h1 =>
      make_flux_map_single_row nside df particle energy pixCos h1, ?_, ?_⟩
  · rw [querySlice_dfNonUniform]
    simp [dfNonUniform]
  · exact ⟨_, make_flux_map_ok 1 dfNonUniform "proton" 1 healpix1Cos
      (by rw [querySlice_dfNonUniform]; norm_num [dfNonUniform])
      (fun i => (healpix1Cos_mem i).1)⟩

/-- C4 witness: the amended behaviour at concrete inputs — an absent pair
yields IndexError and a single-sample slice yields ZeroDivisionError. -/
theorem make_flux_map_no_validation_witness :
    make_flux_map 1 dfProtonOnly "muplus" 1 healpix1Cos = .error .indexError ∧
    make_flux_map 1 dfOneRow "proton" 1 healpix1Cos = .error .zeroDivisionError := by
  constructor
  · exact make_flux_map_no_validation.1 dfProtonOnly "muplus" 1 healpix1Cos 1
      (by simp [querySlice, dfProtonOnly]) (by norm_num) (by norm_num [healpix1Cos])
  · exact make_flux_map_no_validation.2.1 dfOneRow "proton" 1 healpix1Cos 1
      (by simp [querySlice, dfOneRow])

theorem specDf_uniform : ∀ k, k < 5 →
    ((querySlice specDf "proton" 1).map (·.costheta)).getD k 0 = -1 + (k : ℚ) * (1/2) := by
  intro k hk
  rw [querySlice_specDf]
  interval_cases k <;> norm_num [specDf]

/-- C1 witness: the spec's end-to-end scenario. In the m = 5 table over
uniform cosines with Δ = 1/2, pixel 0 of the nside = 1 map (cosine 2/3,
inside the top cell) receives 3/10, the penultimate sample — not 1/10. -/
theorem boundary_cell_receives_penultimate_witness :
    ∃ out, make_flux_map 1 specDf "proton" 1 healpix1Cos = .ok out ∧
      out.getD 0 0 = 3/10 ∧ out.getD 0 0 ≠ 1/10 := by
  obtain ⟨out, hok, hval⟩ := boundary_cell_receives_penultimate 1 specDf "proton" 1
    healpix1Cos 5 (1/2) (by rw [querySlice_specDf]; rfl) (by norm_num) (by norm_num)
    specDf_uniform healpix1Cos_mem
  have h0 := hval 0 (by norm_num [nside2npix]) (by norm_num [healpix1Cos])
  rw [querySlice_specDf] at h0
  have hr : (List.map (fun x => x.flux) specDf).getD (5 - 2) 0 = 3/10 := by
    norm_num [specDf]
  exact ⟨out, hok, h0.trans hr, by rw [h0.trans hr]; norm_num⟩

/-- C2 witness: on the end-to-end table the nside = 1 map has 12 entries,
all non-negative and within [1/10, 1] = [min(table), max(table)]. -/
theorem flux_map_size_and_range_witness :
    ∃ out, make_flux_map 1 specDf "proton" 1 healpix1Cos = .ok out ∧
      out.length = 12 ∧ (∀ q ∈ out, 0 ≤ q) ∧ ∀ q ∈ out, 1/10 ≤ q ∧ q ≤ 1 := by
  obtain ⟨out, hok, hlen, hnn, hrange⟩ := flux_map_size_and_range 1 specDf "proton" 1
    healpix1Cos 5 (1/2) (by rw [querySlice_specDf]; rfl) (by norm_num) (by norm_num)
    specDf_uniform
    (by rw [querySlice_specDf]; intro r hr; fin_cases hr <;> norm_num [specDf])
    healpix1Cos_mem
  refine ⟨out, hok, by simpa using hlen, hnn, ?_⟩
  exact hrange (1/10) 1
    (by rw [querySlice_specDf]; intro r hr; fin_cases hr <;> norm_num [specDf])

/-- C3 witness: pixel 4 of the nside = 1 map has cosine 0, which falls
exactly on the sample boundary (fractional index 2, f = 0), and receives
exactly table[2] = 1/2. -/
theorem interior_pixel_linear_interpolation_witness :
    ∃ out, make_flux_map 1 specDf "proton" 1 healpix1Cos = .ok out ∧
      out.getD 4 0 = 1/2 := by
  obtain ⟨out, hok, hval, hexact⟩ := interior_pixel_linear_interpolation 1 specDf "proton" 1
    healpix1Cos 5 (1/2) (by rw [querySlice_specDf]; rfl) (by norm_num) (by norm_num)
    healpix1Cos_mem 4 (by norm_num [nside2npix]) (by norm_num [healpix1Cos])
  have hc4 : healpix1Cos 4 = 0 := by norm_num [healpix1Cos]
  have hidx : ((healpix1Cos 4 + 1) / (1/2) : ℚ) = 2 := by rw [hc4]; norm_num
  have hf : Int.fract ((healpix1Cos 4 + 1) / (1/2) : ℚ) = 0 := by
    rw [hidx]
    norm_num
  have h2 := hexact hf
  rw [querySlice_specDf, hidx] at h2
  have hfl : (⌊(2 : ℚ)⌋).toNat = 2 := by
    have h22 : ⌊(2 : ℚ)⌋ = 2 := by norm_num
    rw [h22]
    rfl
  rw [hfl] at h2
  have hr : (List.map (fun x => x.flux) specDf).getD 2 0 = 1/2 := by
    norm_num [specDf]
  exact ⟨out, hok, h2.trans hr⟩

/-- C10 witness: the safety bounds instantiated on the end-to-end table at
the equatorial pixel cosine 0. -/
theorem pixel_access_safety_witness :
    (∃ v, pixel_flux [1, 4/5, 1/2, 3/10, 1/10] (1/2) 0 = .ok v) ∧
    (5 - 2 < 5) ∧
    ((0 : ℚ) < 1 - 1/2 → 0 ≤ pyInt (((0 : ℚ) + 1) / (1/2)) ∧
      (pyInt (((0 : ℚ) + 1) / (1/2))).toNat + 1 ≤ 5 - 1) :=
  pixel_access_safety [1, 4/5, 1/2, 3/10, 1/10] (1/2) 0 5 rfl (by norm_num)
    (by norm_num) (by norm_num) (by norm_num)

/-!
## Part II: the pipeline orchestrator of scripts/run_sim.py

The file system and external process execution are capability parameters:
`Env.fileExists` models `os.path.exists` and `Env.exec` models
`subprocess.run` (returning exit code, captured stdout and captured
stderr). Configuration constants imported from config.py are fields of
`Config`. Besides the boolean outcome of the source functions, the
embedding returns the list of stage names actually handed to the external
executor, so that non-invocation can be stated, and the list of printed
diagnostic lines of a stage, so that surfacing can be stated.
-/

/-- Result of `subprocess.run(..., capture_output=True, text=True)`:
return code, stdout, stderr. -/
structure ProcResult where
  returncode : ℤ
  stdout : String
  stderr : String

/-- Capabilities used by run_sim.py: file-existence tests and external
process invocation. -/
structure Env where
  fileExists : String → Bool
  exec : List String → ProcResult

/-- Configuration constants read from config.py by run_sim.py. -/
structure Config where
  gs_dir : String
  location : String
  date : String
  maps_dir : String
  lightmap_dir : String

/-- The fixed stage ordering (run_sim.py line 31). -/
def SIM_STAGES : List String :=
  ["gramssky", "gramsg4", "gramsdetsim", "gramsreadoutsim", "gramselecsim",
   "opticalsim", "opdetsim"]

/-- os.path.basename: the part after the last slash. -/
def basename (s : String) : String :=
  ⟨s.data.foldl (fun acc c => if c = '/' then [] else acc ++ [c]) []⟩

/-- `run_stage(exe, options_file, args_list)` (run_sim.py lines 33-44).
First component: the returned success boolean (exit code 0). Second
component: the lines printed on failure — the error header and the stderr
text truncated to 500 characters, or a placeholder when stderr is empty.
Stdout is captured but never printed. -/
def run_stage (env : Env) (exe options_file : String) (args_list : List String) :
    Bool × List String :=
  let result := env.exec (exe :: options_file :: args_list)
  if result.returncode ≠ 0 then
    (false, ["[ERROR] " ++ basename exe ++ " failed:",
             if result.stderr ≠ "" then result.stderr.take 500 else "(no stderr)"])
  else
    (true, [])

/-- `get_file_paths(sim_dir, prefix)` (run_sim.py lines 47-58). -/
structure SimPaths where
  hepmc3 : String
  g4 : String
  detsim : String
  readoutsim : String
  elecsim : String
  opticalsim : String
  opdetsim : String

def get_file_paths (sim_dir pfx : String) : SimPaths where
  hepmc3 := sim_dir ++ "/" ++ pfx ++ ".hepmc3"
  g4 := sim_dir ++ "/" ++ pfx ++ "_g4.root"
  detsim := sim_dir ++ "/" ++ pfx ++ "_detsim.root"
  readoutsim := sim_dir ++ "/" ++ pfx ++ "_readoutsim.root"
  elecsim := sim_dir ++ "/" ++ pfx ++ "_elecsim.root"
  opticalsim := sim_dir ++ "/" ++ pfx ++ "_opticalsim.root"
  opdetsim := sim_dir ++ "/" ++ pfx ++ "_opdetsim.root"

/-- One PARTICLE_DICT entry (config.py): display name, PDG code string,
mass in MeV, integrated-flux-file name. -/
structure ParticleInfo where
  displayName : String
  pdg : String
  mass : ℚ
  fluxSuffix : String

/-- PARTICLE_DICT from config.py. -/
def PARTICLE_DICT : List (String × ParticleInfo) :=
  [("neutro", ⟨"Neutron", "2112", 939.565, "neutron"⟩),
   ("proton", ⟨"Proton", "2212", 938.272, "proton"⟩),
   ("he---4", ⟨"Helium-4", "1000020040", 3727.38, "unknown"⟩),
   ("muplus", ⟨"mu+", "-13", 105.66, "mu+"⟩),
   ("mumins", ⟨"mu-", "13", 105.66, "mu-"⟩),
   ("electr", ⟨"Electron", "11", 0.511, "e-"⟩),
   ("positr", ⟨"Positron", "-11", 0.511, "e+"⟩),
   ("photon", ⟨"Photon", "22", 0.0, "gamma"⟩)]

/-- The per-stage branch of the loop body of `run_particle_sim` (run_sim.py
lines 74-133): the input-existence checks performed for the stage and, when
they pass, the argument list handed to the executable. `missing` is the
early `return False` on a failed check; `skip` is the `continue` of the
unknown-stage branch. -/
inductive StageStep where
  | missing
  | skip
  | run (args : List String)
deriving DecidableEq

def stage_step (env : Env) (cfg : Config) (paths : SimPaths)
    (fits_file pdg_code : String) (num_events : ℕ) (stage : String) : StageStep :=
  if stage = "gramssky" then
    .run ["--MapEnergyBandsFile", fits_file, "--PrimaryPDG", pdg_code,
          "-n", toString num_events, "-o", paths.hepmc3]
  else if stage = "gramsg4" then
    if env.fileExists paths.hepmc3 then .run ["-i", paths.hepmc3, "-o", paths.g4]
    else .missing
  else if stage = "gramsdetsim" then
    if env.fileExists paths.g4 then .run ["-i", paths.g4, "-o", paths.detsim]
    else .missing
  else if stage = "gramsreadoutsim" then
    if env.fileExists paths.detsim then .run ["-i", paths.detsim, "-o", paths.readoutsim]
    else .missing
  else if stage = "gramselecsim" then
    if env.fileExists paths.detsim then
      if env.fileExists paths.readoutsim then
        .run ["-i", paths.detsim, "-m", paths.readoutsim, "-o", paths.elecsim]
      else .missing
    else .missing
  else if stage = "opticalsim" then
    if env.fileExists paths.g4 then
      if env.fileExists cfg.lightmap_dir then
        .run ["-i", paths.g4, "-m", cfg.lightmap_dir ++ "/" ++ "lightmap*.root",
              "-o", paths.opticalsim]
      else .missing
    else .missing
  else if stage = "opdetsim" then
    if env.fileExists paths.opticalsim then
      .run ["-i", paths.opticalsim, "-o", paths.opdetsim]
    else .missing
  else
    .skip

/-- The stage loop of `run_particle_sim` (run_sim.py lines 73-135): walk the
selected stages; fail on a missing input or a failed invocation, otherwise
continue. The second component records which stages were handed to the
executor. -/
def run_stages (env : Env) (cfg : Config) (paths : SimPaths)
    (fits_file options_file pdg_code : String) (num_events : ℕ) :
    List String → Bool × List String
  | [] => (true, [])
  | stage :: rest =>
    match stage_step env cfg paths fits_file pdg_code num_events stage with
    | .missing => (false, [])
    | .skip => run_stages env cfg paths fits_file options_file pdg_code num_events rest
    | .run args =>
      if (run_stage env (cfg.gs_dir ++ "/" ++ stage) options_file args).1 then
        let r := run_stages env cfg paths fits_file options_file pdg_code num_events rest
        (r.1, stage :: r.2)
      else
        (false, [stage])

/-- Python's `SIM_STAGES[SIM_STAGES.index(start):SIM_STAGES.index(stop)+1]`
(run_sim.py line 67). -/
def stages_to_run (start_stage stop_stage : String) : List String :=
  (SIM_STAGES.take (SIM_STAGES.indexOf stop_stage + 1)).drop (SIM_STAGES.indexOf start_stage)

/-- `run_particle_sim` (run_sim.py lines 61-137). `none` models the KeyError
on an unknown particle (the caller guards against it); otherwise the boolean
result together with the invoked-stage trace. -/
def run_particle_sim (env : Env) (cfg : Config)
    (particle fits_file sim_dir options_file : String) (num_events : ℕ)
    (start_stage stop_stage : String) : Option (Bool × List String) :=
  match PARTICLE_DICT.lookup particle with
  | none => none
  | some info =>
    let paths := get_file_paths sim_dir (cfg.location ++ "_" ++ particle)
    some (run_stages env cfg paths fits_file options_file info.pdg num_events
      (stages_to_run start_stage stop_stage))

/-- Outcome of one iteration of the particle loop in `main` (run_sim.py
lines 169-192). -/
inductive Outcome where
  | skippedUnknown
  | skippedNoFits
  | completed
  | failed
deriving DecidableEq

/-- The body of the particle loop in `main` (run_sim.py lines 169-192):
skip unknown particles, skip when the FITS map is absent, otherwise run the
chain and report OK or FAIL. -/
def process_particle (env : Env) (cfg : Config) (options_file : String)
    (num_events : ℕ) (start_stage stop_stage : String) (particle : String) : Outcome :=
  match PARTICLE_DICT.lookup particle with
  | none => .skippedUnknown
  | some _ =>
    let fits_file := cfg.maps_dir ++ "/fits" ++ "/" ++ cfg.location ++ "_" ++ cfg.date
      ++ "_" ++ particle ++ ".fits"
    if env.fileExists fits_file then
      match run_particle_sim env cfg particle fits_file (cfg.maps_dir ++ "/sim")
        options_file num_events start_stage stop_stage with
      | some (true, _) => .completed
      | _ => .failed
    else
      .skippedNoFits

/-- The particle loop of `main`: one outcome per requested particle, in
order, with no early exit. -/
def process_particles (env : Env) (cfg : Config) (options_file : String)
    (num_events : ℕ) (start_stage stop_stage : String) : List String → List Outcome
  | [] => []
  | p :: rest =>
    process_particle env cfg options_file num_events start_stage stop_stage p ::
      process_particles env cfg options_file num_events start_stage stop_stage rest

/-- `main` (run_sim.py lines 140-193): exit code 1 via sys.exit when the
options file is missing; otherwise process every particle and fall off the
end of main, which exits with code 0 regardless of the outcomes. -/
def main_run (env : Env) (cfg : Config) (particles : List String)
    (options_file : String) (num_events : ℕ) (start_stage stop_stage : String) :
    List Outcome × ℤ :=
  if env.fileExists options_file then
    (process_particles env cfg options_file num_events start_stage stop_stage particles, 0)
  else
    ([], 1)

/-! ### Orchestrator lemmas -/

/-- Whether a stage's branch lets the loop continue: its checked inputs
exist and its invocation (if any) succeeds. -/
def stage_passes (env : Env) (cfg : Config) (paths : SimPaths)
    (fits_file options_file pdg_code : String) (num_events : ℕ) (stage : String) : Bool :=
  match stage_step env cfg paths fits_file pdg_code num_events stage with
  | .missing => false
  | .skip => true
  | .run args => (run_stage env (cfg.gs_dir ++ "/" ++ stage) options_file args).1

/-- Whether a stage's branch reaches the executable invocation at all. -/
def stage_invokes (env : Env) (cfg : Config) (paths : SimPaths)
    (fits_file pdg_code : String) (num_events : ℕ) (stage : String) : Bool :=
  match stage_step env cfg paths fits_file pdg_code num_events stage with
  | .run _ => true
  | _ => false

theorem run_stages_cons_missing {env : Env} {cfg : Config} {paths : SimPaths}
    {fits_file options_file pdg_code : String} {num_events : ℕ} {stage : String}
    {rest : List String}
    (h : stage_step env cfg paths fits_file pdg_code num_events stage = .missing) :
    run_stages env cfg paths fits_file options_file pdg_code num_events (stage :: rest)
      = (false, []) := by
  conv_lhs => unfold run_stages
  rw [h]

theorem run_stages_cons_skip {env : Env} {cfg : Config} {paths : SimPaths}
    {fits_file options_file pdg_code : String} {num_events : ℕ} {stage : String}
    {rest : List String}
    (h : stage_step env cfg paths fits_file pdg_code num_events stage = .skip) :
    run_stages env cfg paths fits_file options_file pdg_code num_events (stage :: rest)
      = run_stages env cfg paths fits_file options_file pdg_code num_events rest := by
  conv_lhs => unfold run_stages
  rw [h]

theorem run_stages_cons_run_ok {env : Env} {cfg : Config} {paths : SimPaths}
    {fits_file options_file pdg_code : String} {num_events : ℕ} {stage : String}
    {rest : List String} {args : List String}
    (h : stage_step env cfg paths fits_file pdg_code num_events stage = .run args)
    (hok : (run_stage env (cfg.gs_dir ++ "/" ++ stage) options_file args).1 = true) :
    run_stages env cfg paths fits_file options_file pdg_code num_events (stage :: rest)
      = ((run_stages env cfg paths fits_file options_file pdg_code num_events rest).1,
         stage :: (run_stages env cfg paths fits_file options_file pdg_code num_events rest).2)
    := by
  conv_lhs => unfold run_stages
  rw [h]
  simp only [hok, if_true]

theorem run_stages_cons_run_fail {env : Env} {cfg : Config} {paths : SimPaths}
    {fits_file options_file pdg_code : String} {num_events : ℕ} {stage : String}
    {rest : List String} {args : List String}
    (h : stage_step env cfg paths fits_file pdg_code num_events stage = .run args)
    (hfail : (run_stage env (cfg.gs_dir ++ "/" ++ stage) options_file args).1 = false) :
    run_stages env cfg paths fits_file options_file pdg_code num_events (stage :: rest)
      = (false, [stage]) := by
  conv_lhs => unfold run_stages
  rw [h]
  simp only [hfail]
  rfl

/-- Walking a passing run of stages continues into the rest, accumulating
exactly the invoking stages of the passed part. -/
theorem run_stages_append_of_passes (env : Env) (cfg : Config) (paths : SimPaths)
    (fits_file options_file pdg_code : String) (num_events : ℕ) :
    ∀ (pre rest : List String),
      (∀ t ∈ pre, stage_passes env cfg paths fits_file options_file pdg_code num_events t
        = true) →
      run_stages env cfg paths fits_file options_file pdg_code num_events (pre ++ rest)
        = ((run_stages env cfg paths fits_file options_file pdg_code num_events rest).1,
           pre.filter (stage_invokes env cfg paths fits_file pdg_code num_events)
             ++ (run_stages env cfg paths fits_file options_file pdg_code num_events rest).2)
  | [], rest => by intro _; simp
  | t :: pre, rest => by
    intro h
    have ht := h t (by simp)
    have hrec := run_stages_append_of_passes env cfg paths fits_file options_file pdg_code
      num_events pre rest (fun a ha => h a (by simp [ha]))
    unfold stage_passes at ht
    rcases hstep : stage_step env cfg paths fits_file pdg_code num_events t with
      _ | _ | args
    · rw [hstep] at ht
      simp at ht
    · rw [List.cons_append, run_stages_cons_skip hstep, hrec, List.filter_cons]
      have hinv : stage_invokes env cfg paths fits_file pdg_code num_events t = false := by
        unfold stage_invokes
        rw [hstep]
      rw [hinv]
      simp
    · rw [hstep] at ht
      rw [List.cons_append, run_stages_cons_run_ok hstep ht, hrec, List.filter_cons]
      have hinv : stage_invokes env cfg paths fits_file pdg_code num_events t = true := by
        unfold stage_invokes
        rw [hstep]
      rw [hinv]
      simp

/-- Every stage in the invocation trace comes from the walked list. -/
theorem run_stages_invoked_sub (env : Env) (cfg : Config) (paths : SimPaths)
    (fits_file options_file pdg_code : String) (num_events : ℕ) :
    ∀ (l : List String) (t : String),
      t ∈ (run_stages env cfg paths fits_file options_file pdg_code num_events l).2 →
      t ∈ l
  | [], t => by
    intro h
    simp [run_stages] at h
  | s :: l, t => by
    intro h
    rcases hstep : stage_step env cfg paths fits_file pdg_code num_events s with
      _ | _ | args
    · rw [run_stages_cons_missing hstep] at h
      simp at h
    · rw [run_stages_cons_skip hstep] at h
      exact List.mem_cons_of_mem s
        (run_stages_invoked_sub env cfg paths fits_file options_file pdg_code num_events l t h)
    · rcases hok : (run_stage env (cfg.gs_dir ++ "/" ++ s) options_file args).1 with _ | _
      · rw [run_stages_cons_run_fail hstep hok] at h
        rcases List.mem_cons.mp h with rfl | hmem
        · exact List.mem_cons_self _ _
        · simp at hmem
      · rw [run_stages_cons_run_ok hstep hok] at h
        rcases List.mem_cons.mp h with rfl | hmem
        · exact List.mem_cons_self _ _
        · exact List.mem_cons_of_mem s
            (run_stages_invoked_sub env cfg paths fits_file options_file pdg_code
              num_events l t hmem)

/-- The particle loop is a map: each outcome depends only on its own
particle. -/
theorem process_particles_eq_map (env : Env) (cfg : Config) (options_file : String)
    (num_events : ℕ) (start_stage stop_stage : String) :
    ∀ l : List String,
      process_particles env cfg options_file num_events start_stage stop_stage l
        = l.map (process_particle env cfg options_file num_events start_stage stop_stage)
  | [] => rfl
  | p :: rest => by
    rw [List.map_cons]
    show _ :: process_particles env cfg options_file num_events start_stage stop_stage rest
      = _
    rw [process_particles_eq_map env cfg options_file num_events start_stage stop_stage rest]

/-! ### Claims about the orchestrator -/

/-- C5: a Failed outcome for one work item does not prevent the orchestrator
from starting and running every subsequent work item: the loop over
particles produces the failed item's outcome in place and still processes
each item of the remaining list independently. -/
theorem failed_item_does_not_block_rest (env : Env) (cfg : Config) (options_file : String)
    (num_events : ℕ) (start_stage stop_stage : String)
    (ps1 ps2 : List String) (p : String)
    (hfail : process_particle env cfg options_file num_events start_stage stop_stage p
      = .failed) :
    process_particles env cfg options_file num_events start_stage stop_stage
        (ps1 ++ p :: ps2)
      = process_particles env cfg options_file num_events start_stage stop_stage ps1
        ++ .failed ::
          ps2.map (process_particle env cfg options_file num_events start_stage stop_stage)
    := by
  rw [process_particles_eq_map, process_particles_eq_map, List.map_append, List.map_cons,
    hfail]

/-- C6: within the requested range, reaching past a stage requires its
checked input artifacts to exist and its invocation to succeed. If a check
fails the work item fails with the stage's executable not invoked and
nothing after it invoked; if the invocation fails the work item fails with
nothing after the stage invoked. -/
theorem stage_preconditions_gate_progress (env : Env) (cfg : Config)
    (particle fits_file sim_dir options_file : String) (num_events : ℕ)
    (start_stage stop_stage : String) (info : ParticleInfo)
    (hlook : PARTICLE_DICT.lookup particle = some info)
    (pre post : List String) (s : String)
    (hdecomp : stages_to_run start_stage stop_stage = pre ++ s :: post)
    (hnodup : (pre ++ s :: post).Nodup)
    (hpre : ∀ t ∈ pre, stage_passes env cfg
      (get_file_paths sim_dir (cfg.location ++ "_" ++ particle)) fits_file options_file
      info.pdg num_events t = true) :
    (stage_step env cfg (get_file_paths sim_dir (cfg.location ++ "_" ++ particle))
        fits_file info.pdg num_events s = .missing →
      ∃ inv, run_particle_sim env cfg particle fits_file sim_dir options_file num_events
          start_stage stop_stage = some (false, inv) ∧
        s ∉ inv ∧ ∀ t ∈ inv, t ∈ pre) ∧
    (∀ args, stage_step env cfg (get_file_paths sim_dir (cfg.location ++ "_" ++ particle))
        fits_file info.pdg num_events s = .run args →
      (run_stage env (cfg.gs_dir ++ "/" ++ s) options_file args).1 = false →
      ∃ inv, run_particle_sim env cfg particle fits_file sim_dir options_file num_events
          start_stage stop_stage = some (false, inv) ∧
        (∀ t ∈ inv, t ∈ pre ∨ t = s) ∧ ∀ t ∈ post, t ∉ inv) := by
  have hsnotpre : s ∉ pre := by
    have hdisj := List.disjoint_of_nodup_append hnodup
    intro hs
    exact hdisj hs (List.mem_cons_self _ _)
  have hrun : run_particle_sim env cfg particle fits_file sim_dir options_file num_events
      start_stage stop_stage
      = some (run_stages env cfg (get_file_paths sim_dir (cfg.location ++ "_" ++ particle))
          fits_file options_file info.pdg num_events (stages_to_run start_stage stop_stage))
    := by
    unfold run_particle_sim
    rw [hlook]
  constructor
  · intro hmiss
    refine ⟨pre.filter (stage_invokes env cfg
        (get_file_paths sim_dir (cfg.location ++ "_" ++ particle)) fits_file info.pdg
        num_events), ?_, ?_, ?_⟩
    · rw [hrun, hdecomp, run_stages_append_of_passes env cfg _ fits_file options_file
        info.pdg num_events pre (s :: post) hpre, run_stages_cons_missing hmiss]
      simp
    · intro hs
      exact hsnotpre (List.mem_of_mem_filter hs)
    · intro t ht
      exact List.mem_of_mem_filter ht
  · intro args hargs hfail
    refine ⟨pre.filter (stage_invokes env cfg
        (get_file_paths sim_dir (cfg.location ++ "_" ++ particle)) fits_file info.pdg
        num_events) ++ [s], ?_, ?_, ?_⟩
    · rw [hrun, hdecomp, run_stages_append_of_passes env cfg _ fits_file options_file
        info.pdg num_events pre (s :: post) hpre, run_stages_cons_run_fail hargs hfail]
    · intro t ht
      rcases List.mem_append.mp ht with hl | hr
      · exact Or.inl (List.mem_of_mem_filter hl)
      · rcases List.mem_cons.mp hr with rfl | hc
        · exact Or.inr rfl
        · exact absurd hc (List.not_mem_nil t)
    · intro t htpost ht
      have hspost : s ∉ post := (List.nodup_cons.mp hnodup.of_append_right).1
      rcases List.mem_append.mp ht with hl | hr
      · have hdisj := List.disjoint_of_nodup_append hnodup
        exact hdisj (List.mem_of_mem_filter hl) (List.mem_cons_of_mem s htpost)
      · rcases List.mem_cons.mp hr with rfl | hc
        · exact hspost htpost
        · exact List.not_mem_nil t hc

/-- C8: the invocation trace of `run_particle_sim` contains only stages of
the requested inclusive slice, and never a stage strictly before
start_stage in the fixed ordering — so a resumed run re-invokes nothing
already done before start_stage. -/
theorem only_requested_stages_invoked (env : Env) (cfg : Config)
    (particle fits_file sim_dir options_file : String) (num_events : ℕ)
    (start_stage stop_stage : String) (b : Bool) (inv : List String)
    (hrun : run_particle_sim env cfg particle fits_file sim_dir options_file num_events
      start_stage stop_stage = some (b, inv)) :
    ∀ t ∈ inv, t ∈ stages_to_run start_stage stop_stage ∧
      t ∉ SIM_STAGES.take (SIM_STAGES.indexOf start_stage) := by
  intro t ht
  have hmem : t ∈ stages_to_run start_stage stop_stage := by
    rcases hlook : PARTICLE_DICT.lookup particle with _ | info
    · rw [run_particle_sim, hlook] at hrun
      exact absurd hrun (by simp)
    · rw [run_particle_sim, hlook] at hrun
      have hinv : inv = (run_stages env cfg
          (get_file_paths sim_dir (cfg.location ++ "_" ++ particle)) fits_file options_file
          info.pdg num_events (stages_to_run start_stage stop_stage)).2 := by
        have := Option.some.inj hrun
        rw [this]
      rw [hinv] at ht
      exact run_stages_invoked_sub env cfg _ fits_file options_file info.pdg num_events _ t ht
  refine ⟨hmem, ?_⟩
  intro htake
  have hdrop : t ∈ SIM_STAGES.drop (SIM_STAGES.indexOf start_stage) := by
    have hsub : stages_to_run start_stage stop_stage
        ⊆ SIM_STAGES.drop (SIM_STAGES.indexOf start_stage) := by
      unfold stages_to_run
      rw [List.drop_take]
      exact List.take_subset _ _
    exact hsub hmem
  have hnd : SIM_STAGES.Nodup := by decide
  exact (List.disjoint_take_drop hnd (le_refl _)) htake hdrop

/-- C7 counterexample: a run in which the only work item fails (its first
stage's invocation exits nonzero) still finishes with overall exit code 0 —
main never turns item failures into a nonzero exit. -/
def envAllFail : Env := ⟨fun _ => true, fun _ => ⟨1, "", "boom"⟩⟩

def envAllOk : Env := ⟨fun _ => true, fun _ => ⟨0, "", ""⟩⟩

def envNoFiles : Env := ⟨fun _ => false, fun _ => ⟨0, "", ""⟩⟩

def cfgTest : Config := ⟨"/gs", "tucson", "2025_8_31", "/maps", "/lightmap"⟩

theorem failed_item_exit_code_zero :
    process_particle envAllFail cfgTest "opts.xml" 10 "gramssky" "opdetsim" "proton"
      = .failed ∧
    (main_run envAllFail cfgTest ["proton"] "opts.xml" 10 "gramssky" "opdetsim").1
      = [.failed] ∧
    (main_run envAllFail cfgTest ["proton"] "opts.xml" 10 "gramssky" "opdetsim").2 = 0 := by
  decide

/-- C7 (amended): the overall exit code ignores work-item failures entirely.
It is 1 exactly when the options file is missing (the sys.exit(1) before the
loop) and 0 otherwise, even when every work item failed. -/
theorem exit_code_ignores_item_failures (env : Env) (cfg : Config)
    (particles : List String) (options_file : String) (num_events : ℕ)
    (start_stage stop_stage : String) :
    (main_run env cfg particles options_file num_events start_stage stop_stage).2
      = if env.fileExists options_file then 0 else 1 := by
  unfold main_run
  split_ifs <;> rfl

/-- C9 counterexample: a failing stage whose diagnostic went to stdout. The
command is built as executable-options-flags and failure is reported, but
the printed diagnostic is the placeholder "(no stderr)" — the captured
stdout text is discarded, contradicting the claim that stdout/stderr text
is surfaced. -/
def envStdoutOnly : Env := ⟨fun _ => false, fun _ => ⟨1, "relevant diagnostic", ""⟩⟩

theorem stdout_diagnostic_not_surfaced :
    (envStdoutOnly.exec ["bin/tool", "opts.xml"]).stdout = "relevant diagnostic" ∧
    (run_stage envStdoutOnly "bin/tool" "opts.xml" []).1 = false ∧
    (run_stage envStdoutOnly "bin/tool" "opts.xml" []).2
      = ["[ERROR] tool failed:", "(no stderr)"] ∧
    "relevant diagnostic" ∉ (run_stage envStdoutOnly "bin/tool" "opts.xml" []).2 := by
  decide

/-- C9 (amended): run_stage invokes the stage as the executable followed by
the options file followed by the stage flags, reports success exactly when
the exit code is 0, and on nonzero exit with nonempty stderr prints the
stderr text truncated to 500 characters; stdout is captured but never
surfaced. -/
theorem run_stage_cmd_success_and_stderr (env : Env) (exe options_file : String)
    (args_list : List String) :
    ((run_stage env exe options_file args_list).1 = true ↔
      (env.exec (exe :: options_file :: args_list)).returncode = 0) ∧
    ((env.exec (exe :: options_file :: args_list)).returncode ≠ 0 →
      (env.exec (exe :: options_file :: args_list)).stderr ≠ "" →
      (run_stage env exe options_file args_list).2
        = ["[ERROR] " ++ basename exe ++ " failed:",
           (env.exec (exe :: options_file :: args_list)).stderr.take 500]) := by
  constructor
  · simp only [run_stage]
    split_ifs with h
    · simp [h]
    · simp at h
      simp [h]
  · intro h1 h2
    simp only [run_stage]
    rw [if_pos h1, if_pos h2]

/-! ### Witnesses for the orchestrator claims -/

/-- C5 witness: with an environment in which every invocation exits 1, the
proton work item fails, yet the neutron item before it and the photon item
after it each get their own independently computed outcome. -/
theorem failed_item_does_not_block_rest_witness :
    process_particle envAllFail cfgTest "opts.xml" 10 "gramssky" "opdetsim" "proton"
      = .failed ∧
    process_particles envAllFail cfgTest "opts.xml" 10 "gramssky" "opdetsim"
        (["neutro"] ++ "proton" :: ["photon"])
      = process_particles envAllFail cfgTest "opts.xml" 10 "gramssky" "opdetsim" ["neutro"]
        ++ .failed :: (["photon"].map
          (process_particle envAllFail cfgTest "opts.xml" 10 "gramssky" "opdetsim")) := by
  have hfail : process_particle envAllFail cfgTest "opts.xml" 10 "gramssky" "opdetsim"
      "proton" = .failed := by decide
  exact ⟨hfail, failed_item_does_not_block_rest envAllFail cfgTest "opts.xml" 10
    "gramssky" "opdetsim" ["neutro"] ["photon"] "proton" hfail⟩

def protonInfo : ParticleInfo := ⟨"Proton", "2212", 938.272, "proton"⟩

/-- C6 witness: starting from gramsg4 with its required HepMC3 input absent,
the work item fails and neither gramsg4 nor the following gramsdetsim is
ever handed to the executor. -/
theorem stage_preconditions_gate_progress_witness :
    ∃ inv, run_particle_sim envNoFiles cfgTest "proton" "f.fits" "/sim" "opts.xml" 10
        "gramsg4" "gramsdetsim" = some (false, inv) ∧
      "gramsg4" ∉ inv ∧ ∀ t ∈ inv, t ∈ ([] : List String) := by
  exact (stage_preconditions_gate_progress envNoFiles cfgTest "proton" "f.fits" "/sim"
    "opts.xml" 10 "gramsg4" "gramsdetsim" protonInfo rfl [] ["gramsdetsim"] "gramsg4"
    (by decide) (by decide) (by simp)).1 (by decide)

/-- C8 witness: a successful gramssky-to-gramsg4 run invokes gramsg4, which
is in the requested slice and not among the stages before start_stage. -/
theorem only_requested_stages_invoked_witness :
    "gramsg4" ∈ stages_to_run "gramssky" "gramsg4" ∧
    "gramsg4" ∉ SIM_STAGES.take (SIM_STAGES.indexOf "gramssky") := by
  have h := only_requested_stages_invoked envAllOk cfgTest "proton" "f.fits" "/sim"
    "opts.xml" 10 "gramssky" "gramsg4" true ["gramssky", "gramsg4"] (by decide)
  exact h "gramsg4" (by simp)

/-- C9 witness: the amended run_stage contract at a failing invocation with
nonempty stderr. -/
theorem run_stage_cmd_success_and_stderr_witness :
    ((run_stage envAllFail "/gs/gramssky" "opts.xml" []).1 = true ↔
      (envAllFail.exec ("/gs/gramssky" :: "opts.xml" :: ([] : List String))).returncode = 0)
    ∧ (run_stage envAllFail "/gs/gramssky" "opts.xml" []).2
      = ["[ERROR] " ++ basename "/gs/gramssky" ++ " failed:",
         (envAllFail.exec ("/gs/gramssky" :: "opts.xml" :: ([] : List String))).stderr.take
           500] := by
  refine ⟨(run_stage_cmd_success_and_stderr envAllFail "/gs/gramssky" "opts.xml" []).1,
    (run_stage_cmd_success_and_stderr envAllFail "/gs/gramssky" "opts.xml" []).2 ?_ ?_⟩
  · decide
  · decide
